import Mathlib

/-!
Verification of the Stock-Analysis-App core against its specification.

Dates are modelled as natural numbers counting days from an epoch that
falls on a Monday, so `d % 7` is the day of week (0 = Monday … 6 = Sunday).
Prices are modelled as rationals.  Pandas series values that can be NaN
are modelled as `Option ℚ`; series of finite values are `List ℚ`.
-/

namespace StockApp

/-- A day is a business day when its day-of-week is Monday–Friday. -/
def isBusinessDay (d : ℕ) : Bool := d % 7 < 5

/-- Pandas `date_range(start, …, freq="B")` rolls a non-business start
forward to the next business day; a Saturday moves ahead two days and a
Sunday one day. -/
def rollForwardBDay (d : ℕ) : ℕ :=
  if d % 7 = 5 then d + 2 else if d % 7 = 6 then d + 1 else d

/-- The next business day strictly after `d`. -/
def nextBDay (d : ℕ) : ℕ := rollForwardBDay (d + 1)

/-- `bdateRange start n`: the first `n` business days starting from the
first business day on or after `start` (the semantics of
`pd.date_range(start, periods=n, freq="B")`). -/
def bdateRange (start : ℕ) : ℕ → List ℕ
  | 0 => []
  | n + 1 =>
    let s := rollForwardBDay start
    s :: bdateRange (s + 1) n

/-- `future_dates` of `stock_prediction.py` line 110:
`pd.date_range(data.index[-1] + timedelta(days=1), periods=forecast_days, freq="B")`. -/
def future_dates (lastDate : ℕ) (forecast_days : ℕ) : List ℕ :=
  bdateRange (lastDate + 1) forecast_days

/-- `forecast_df` of `stock_prediction.py` lines 111–114: rows pair the
future dates with the forecast values. -/
def forecast_df (lastDate : ℕ) (forecast_days : ℕ) (forecast : List ℚ) :
    List (ℕ × ℚ) :=
  (future_dates lastDate forecast_days).zip forecast

theorem isBusinessDay_rollForwardBDay (d : ℕ) :
    isBusinessDay (rollForwardBDay d) = true := by
  simp only [isBusinessDay, rollForwardBDay]
  split
  · next h => simp only [decide_eq_true_eq]; omega
  · split
    · next h => simp only [decide_eq_true_eq]; omega
    · next h h' => simp only [decide_eq_true_eq]; omega

theorem le_rollForwardBDay (d : ℕ) : d ≤ rollForwardBDay d := by
  simp only [rollForwardBDay]
  split
  · omega
  · split <;> omega

theorem lt_nextBDay (d : ℕ) : d < nextBDay d := by
  have := le_rollForwardBDay (d + 1)
  simp only [nextBDay]; omega

theorem rollForwardBDay_eq_of_business (d : ℕ) (h : isBusinessDay d = true) :
    rollForwardBDay d = d := by
  simp only [isBusinessDay, decide_eq_true_eq] at h
  simp only [rollForwardBDay]
  split
  · omega
  · split <;> omega

theorem bdateRange_length (start n : ℕ) : (bdateRange start n).length = n := by
  induction n generalizing start with
  | zero => rfl
  | succ n ih => simp [bdateRange, ih]

theorem bdateRange_business (start n : ℕ) :
    ∀ d ∈ bdateRange start n, isBusinessDay d = true := by
  induction n generalizing start with
  | zero => intro d hd; simp [bdateRange] at hd
  | succ n ih =>
    intro d hd
    simp only [bdateRange, List.mem_cons] at hd
    rcases hd with h | h
    · subst h; exact isBusinessDay_rollForwardBDay start
    · exact ih _ d h

theorem bdateRange_chain (start n : ℕ) :
    List.Chain' (fun a b => b = nextBDay a) (bdateRange start n) := by
  induction n generalizing start with
  | zero => simp [bdateRange]
  | succ n ih =>
    cases n with
    | zero => simp [bdateRange]
    | succ m =>
      simp only [bdateRange, List.chain'_cons]
      constructor
      · rfl
      · exact ih _

/-! ### Indicator engine (`stock_analyss.py` lines 150–187) -/

/-- `data["Close"].rolling(window=window).mean()` (`Moving_average`, line
151): at position `i` the mean of the `window` closes ending at `i` when
the window has filled, `none` (NaN) otherwise. -/
def Moving_average (close : List ℚ) (window : ℕ) : List (Option ℚ) :=
  (List.range close.length).map fun i =>
    if window ≤ i + 1 then
      some (((close.take (i + 1)).drop (i + 1 - window)).sum / window)
    else none

/-- `close.diff()` without its leading NaN: consecutive differences. -/
def diffs : List ℚ → List ℚ
  | [] => []
  | [_] => []
  | x :: y :: rest => (y - x) :: diffs (y :: rest)

/-- Tail of the `adjust=False` EWM recurrence: each output is
`α·x + (1-α)·prev`. -/
def ewmTail (α prev : ℚ) : List ℚ → List ℚ
  | [] => []
  | x :: xs =>
    let v := α * x + (1 - α) * prev
    v :: ewmTail α v xs

/-- `series.ewm(alpha=α, adjust=False).mean()` on all-finite input: seeded
at the first observation, then the recurrence. -/
def ewm (α : ℚ) : List ℚ → List ℚ
  | [] => []
  | x :: xs => x :: ewmTail α x xs

/-- `avg_gain` of `RSI` (line 163), aligned to the differences (the series
entry at index 0 is NaN and is dropped). -/
def avg_gain (close : List ℚ) (window : ℕ) : List ℚ :=
  ewm (1 / window) ((diffs close).map fun x => max x 0)

/-- `avg_loss` of `RSI` (line 164), aligned to the differences. -/
def avg_loss (close : List ℚ) (window : ℕ) : List ℚ :=
  ewm (1 / window) ((diffs close).map fun x => max (-x) 0)

/-- `RSI` (lines 158–167): `rs = avg_gain / avg_loss.replace(0, NaN)`,
`rsi = (100 - 100/(1+rs)).fillna(50)`.  Index 0 (NaN diff) becomes 50; an
index with zero `avg_loss` becomes 50. -/
def RSI (close : List ℚ) (window : ℕ) : List ℚ :=
  match close with
  | [] => []
  | _ :: _ =>
    50 :: List.zipWith
      (fun g l => if l = 0 then 50 else 100 - 100 / (1 + g / l))
      (avg_gain close window) (avg_loss close window)

/-- `close.ewm(span=s, adjust=False).mean()`: span-to-alpha conversion
`α = 2/(s+1)`. -/
def emaSpan (s : ℕ) (close : List ℚ) : List ℚ :=
  ewm (2 / ((s : ℚ) + 1)) close

/-- `macd = short_ema - long_ema` (`MACD`, lines 177–179). -/
def macd (close : List ℚ) (short long : ℕ) : List ℚ :=
  List.zipWith (· - ·) (emaSpan short close) (emaSpan long close)

/-- `signal_line = macd.ewm(span=signal, adjust=False).mean()` (line 180). -/
def signal_line (close : List ℚ) (short long signal : ℕ) : List ℚ :=
  emaSpan signal (macd close short long)

/-- `hist = macd - signal_line` (line 181). -/
def hist (close : List ℚ) (short long signal : ℕ) : List ℚ :=
  List.zipWith (· - ·) (macd close short long)
    (signal_line close short long signal)

theorem ewmTail_length (α prev : ℚ) (l : List ℚ) :
    (ewmTail α prev l).length = l.length := by
  induction l generalizing prev with
  | nil => rfl
  | cons x xs ih => simp [ewmTail, ih]

theorem ewm_length (α : ℚ) (l : List ℚ) : (ewm α l).length = l.length := by
  cases l with
  | nil => rfl
  | cons x xs => simp [ewm, ewmTail_length]

theorem diffs_length (l : List ℚ) : (diffs l).length = l.length - 1 := by
  induction l with
  | nil => rfl
  | cons x xs ih =>
    cases xs with
    | nil => rfl
    | cons y rest => simp [diffs] at ih ⊢; omega

theorem ewmTail_nonneg (α prev : ℚ) (l : List ℚ) (hα0 : 0 ≤ α)
    (hα1 : α ≤ 1) (hp : 0 ≤ prev) (hl : ∀ x ∈ l, 0 ≤ x) :
    ∀ y ∈ ewmTail α prev l, 0 ≤ y := by
  induction l generalizing prev with
  | nil => intro y hy; simp [ewmTail] at hy
  | cons x xs ih =>
    intro y hy
    simp only [ewmTail, List.mem_cons] at hy
    have hx : 0 ≤ x := hl x (List.mem_cons_self _ _)
    have hv : 0 ≤ α * x + (1 - α) * prev := by
      have h1 : 0 ≤ α * x := mul_nonneg hα0 hx
      have h2 : 0 ≤ (1 - α) * prev := mul_nonneg (by linarith) hp
      linarith
    rcases hy with h | h
    · subst h; exact hv
    · exact ih _ hv (fun z hz => hl z (List.mem_cons_of_mem _ hz)) y h

theorem ewm_nonneg (α : ℚ) (l : List ℚ) (hα0 : 0 ≤ α) (hα1 : α ≤ 1)
    (hl : ∀ x ∈ l, 0 ≤ x) : ∀ y ∈ ewm α l, 0 ≤ y := by
  cases l with
  | nil => intro y hy; simp [ewm] at hy
  | cons x xs =>
    intro y hy
    simp only [ewm, List.mem_cons] at hy
    have hx : 0 ≤ x := hl x (List.mem_cons_self _ _)
    rcases hy with h | h
    · subst h; exact hx
    · exact ewmTail_nonneg α x xs hα0 hα1 hx
        (fun z hz => hl z (List.mem_cons_of_mem _ hz)) y h

/-! ### Per-page pipelines -/

/-- The error kinds of the spec's taxonomy that the pages report via
`st.error` followed by `st.stop`. -/
inductive ErrKind where
  | InvalidInput
  | ProviderUnavailable
  | NoDataFound
  | ModelFitError
  deriving DecidableEq, Repr

/-- `current_close` / `daily_change` on the analysis page
(`stock_analyss.py` lines 274–286): with at least two bars the change is
last close minus second-to-last close, with exactly one bar it is `0.0`;
the second-to-last access only happens under the length guard. -/
def metricsAnalysis (close : List ℚ) : Option (ℚ × ℚ) :=
  match close.getLast? with
  | none => none
  | some current_close =>
    if 2 ≤ close.length then
      some (current_close, current_close - close.getD (close.length - 2) 0)
    else
      some (current_close, 0)

/-- `current_close` / `prev_close` / `daily_change` on the prediction page
(`stock_prediction.py` lines 67–69): `prev_close` falls back to the
current close when only one bar is present. -/
def metricsPrediction (close : List ℚ) : Option (ℚ × ℚ) :=
  match close.getLast? with
  | none => none
  | some current_close =>
    let prev_close :=
      if 1 < close.length then close.getD (close.length - 2) 0
      else current_close
    some (current_close, current_close - prev_close)

/-- External collaborators of the analysis page: the `yf.Ticker(...).info`
lookup (which may raise), the primary `yf.download` result (closes; empty
list models an empty frame), and the secondary chart fetch (which may
raise or be empty). -/
structure AnalysisProvider where
  infoFetch : Except String Unit
  priceFetch : List ℚ
  chartFetch : Except Unit (List ℚ)

/-- Observable outcome of one analysis-page run. -/
structure AnalysisResult where
  err : Option ErrKind
  fetchAttempted : Bool
  metrics : Option (ℚ × ℚ)
  chartSeries : Option (List ℚ)
  deriving DecidableEq, Repr

/-- The analysis page (`stock_analyss.py`): date validation (lines
217–219), info fetch (224–229), primary download and empty check
(267–271), metrics (274–286), secondary chart fetch with fallback to a
copy of the primary data (318–332), then chart rendering from `data1`. -/
def analysisPipeline (start_date end_date : ℕ) (p : AnalysisProvider) :
    AnalysisResult :=
  if end_date ≤ start_date then
    ⟨some .InvalidInput, false, none, none⟩
  else
    match p.infoFetch with
    | .error _ => ⟨some .ProviderUnavailable, true, none, none⟩
    | .ok _ =>
      let data := p.priceFetch
      if data.isEmpty then
        ⟨some .NoDataFound, true, none, none⟩
      else
        let m := metricsAnalysis data
        let data1 :=
          match p.chartFetch with
          | .error _ => data
          | .ok l => if l.isEmpty then data else l
        ⟨none, true, m, some data1⟩

/-- Observable outcome of one prediction-page run. -/
structure PredictionResult where
  err : Option ErrKind
  fetchAttempted : Bool
  metrics : Option (ℚ × ℚ)
  historicalRendered : Bool
  forecastRendered : Bool
  forecastTable : Option (List (ℕ × ℚ))
  deriving DecidableEq, Repr

/-- The prediction page (`stock_prediction.py`): date validation (lines
53–55), download and empty check (62–65), metrics (67–69), historical
candlestick (79–92), ARIMA fit/forecast in a `try` whose `except` reports
and stops (100–107), future business-day dates and forecast frame
(110–114).  The external ARIMA fit is a parameter `fit` that either
raises or returns the point forecasts. -/
def predictionPipeline (start_date end_date : ℕ)
    (priceFetch : List (ℕ × ℚ)) (fit : List ℚ → Except String (List ℚ))
    (forecast_days : ℕ) : PredictionResult :=
  if end_date ≤ start_date then
    ⟨some .InvalidInput, false, none, false, false, none⟩
  else
    let data := priceFetch
    if data.isEmpty then
      ⟨some .NoDataFound, true, none, false, false, none⟩
    else
      let closes := data.map Prod.snd
      let m := metricsPrediction closes
      match fit closes with
      | .error _ => ⟨some .ModelFitError, true, m, true, false, none⟩
      | .ok forecast =>
        let lastDate := (data.map Prod.fst).getLastD 0
        ⟨none, true, m, true, true,
          some (forecast_df lastDate forecast_days forecast)⟩

theorem chain'_lt_bdateRange (start n : ℕ) :
    List.Chain' (· < ·) (bdateRange start n) :=
  (bdateRange_chain start n).imp fun {a _} h => h ▸ lt_nextBDay a

theorem pairwise_lt_bdateRange (start n : ℕ) :
    List.Pairwise (· < ·) (bdateRange start n) :=
  List.chain'_iff_pairwise.mp (chain'_lt_bdateRange start n)

/-- **C1.** For every last observed date, positive horizon `h` and
`h`-point forecast, `forecast_df` has exactly `h` rows, every row's date
is a business day, consecutive rows are consecutive business days (hence
dates strictly increase), and the first row's date is the next business
day strictly after the last observed date. -/
theorem forecast_points_business_days (lastDate h : ℕ) (forecast : List ℚ)
    (hh : 0 < h) (hf : forecast.length = h) :
    (forecast_df lastDate h forecast).length = h ∧
    (∀ p ∈ forecast_df lastDate h forecast, isBusinessDay p.1 = true) ∧
    List.Chain' (fun a b : ℕ × ℚ => b.1 = nextBDay a.1)
      (forecast_df lastDate h forecast) ∧
    List.Pairwise (fun a b : ℕ × ℚ => a.1 < b.1)
      (forecast_df lastDate h forecast) ∧
    ((forecast_df lastDate h forecast).head?).map Prod.fst =
      some (nextBDay lastDate) := by
  have hlen : (future_dates lastDate h).length = h := bdateRange_length _ _
  have hmap : (forecast_df lastDate h forecast).map Prod.fst =
      future_dates lastDate h := by
    apply List.map_fst_zip
    omega
  refine ⟨?_, ?_, ?_, ?_, ?_⟩
  · simp [forecast_df, List.length_zip, hlen, hf]
  · intro p hp
    have := (List.of_mem_zip hp).1
    exact bdateRange_business _ _ _ this
  · have h1 : List.Chain' (fun a b => b = nextBDay a)
        ((forecast_df lastDate h forecast).map Prod.fst) := by
      rw [hmap]; exact bdateRange_chain _ _
    rwa [List.chain'_map] at h1
  · have h1 : List.Pairwise (· < ·)
        ((forecast_df lastDate h forecast).map Prod.fst) := by
      rw [hmap]; exact pairwise_lt_bdateRange _ _
    rwa [List.pairwise_map] at h1
  · cases h with
    | zero => omega
    | succ n =>
      cases forecast with
      | nil => simp at hf
      | cons f fs =>
        simp [forecast_df, future_dates, bdateRange, nextBDay]

/-- Witness for C1 at `lastDate = 4` (a Friday), `h = 3`,
`forecast = [100, 101, 102]`: the dates are 7, 8, 9 (Mon–Wed). -/
theorem forecast_points_business_days_witness :
    0 < 3 ∧ ([(100 : ℚ), 101, 102].length = 3) ∧
    ((forecast_df 4 3 [(100 : ℚ), 101, 102]).length = 3 ∧
    (∀ p ∈ forecast_df 4 3 [(100 : ℚ), 101, 102], isBusinessDay p.1 = true) ∧
    List.Chain' (fun a b : ℕ × ℚ => b.1 = nextBDay a.1)
      (forecast_df 4 3 [(100 : ℚ), 101, 102]) ∧
    List.Pairwise (fun a b : ℕ × ℚ => a.1 < b.1)
      (forecast_df 4 3 [(100 : ℚ), 101, 102]) ∧
    ((forecast_df 4 3 [(100 : ℚ), 101, 102]).head?).map Prod.fst =
      some (nextBDay 4)) :=
  ⟨by decide, by decide,
    forecast_points_business_days 4 3 [100, 101, 102] (by decide) (by decide)⟩

theorem list_sum_eq_range_getD (l : List ℚ) :
    l.sum = ∑ j in Finset.range l.length, l.getD j 0 := by
  induction l with
  | nil => simp
  | cons x xs ih =>
    rw [List.sum_cons, List.length_cons, Finset.sum_range_succ', ih]
    simp [List.getD_cons_succ, List.getD_cons_zero, add_comm]

theorem slice_getD (l : List ℚ) (m k j : ℕ) (hj : k + j < m)
    (_hm : m ≤ l.length) : ((l.take m).drop k).getD j 0 = l.getD (k + j) 0 := by
  rw [List.getD_eq_getElem?_getD, List.getD_eq_getElem?_getD,
    List.getElem?_drop, List.getElem?_take]
  simp [hj]

theorem slice_length (l : List ℚ) (m k : ℕ) (hm : m ≤ l.length) :
    ((l.take m).drop k).length = m - k := by
  rw [List.length_drop, List.length_take, Nat.min_eq_left hm]

/-- **C2.** For positive `window ≤ len(close)` and every index
`i < len(close)`: the moving-average output has the input's length, is
`none` (a preserved gap, not `0`) while the window has not filled
(`i + 1 < window`), and once filled equals the arithmetic mean of the
`window` closes at positions `i - window + 1 … i`. -/
theorem moving_average_window_mean (close : List ℚ) (window i : ℕ)
    (hw : 0 < window) (_hwl : window ≤ close.length) (hi : i < close.length) :
    (Moving_average close window).length = close.length ∧
    (i + 1 < window → (Moving_average close window).getD i none = none) ∧
    (window ≤ i + 1 →
      (Moving_average close window).getD i none =
        some ((∑ j in Finset.range window,
          close.getD (i + 1 - window + j) 0) / window)) := by
  have hget : (Moving_average close window).getD i none =
      (if window ≤ i + 1 then
        some (((close.take (i + 1)).drop (i + 1 - window)).sum / window)
      else none) := by
    rw [List.getD_eq_getElem?_getD]
    simp only [Moving_average, List.getElem?_map, List.getElem?_range hi]
    rfl
  refine ⟨by simp [Moving_average], ?_, ?_⟩
  · intro hlt
    rw [hget, if_neg (by omega)]
  · intro hge
    rw [hget, if_pos hge]
    have hsum : ((close.take (i + 1)).drop (i + 1 - window)).sum =
        ∑ j in Finset.range window, close.getD (i + 1 - window + j) 0 := by
      rw [list_sum_eq_range_getD, slice_length close (i + 1) (i + 1 - window)
        (by omega)]
      have hwin : i + 1 - (i + 1 - window) = window := by omega
      rw [hwin]
      apply Finset.sum_congr rfl
      intro j hj
      rw [Finset.mem_range] at hj
      exact slice_getD close (i + 1) (i + 1 - window) j (by omega) (by omega)
    rw [hsum]

/-- Witness for C2 at `close = [1, 2, 3, 4]`, `window = 2`, `i = 2`:
the output value is `(2 + 3) / 2`. -/
theorem moving_average_window_mean_witness :
    0 < 2 ∧ 2 ≤ [(1 : ℚ), 2, 3, 4].length ∧ 2 < [(1 : ℚ), 2, 3, 4].length ∧
    ((Moving_average [(1 : ℚ), 2, 3, 4] 2).length = [(1 : ℚ), 2, 3, 4].length ∧
    (2 + 1 < 2 → (Moving_average [(1 : ℚ), 2, 3, 4] 2).getD 2 none = none) ∧
    (2 ≤ 2 + 1 →
      (Moving_average [(1 : ℚ), 2, 3, 4] 2).getD 2 none =
        some ((∑ j in Finset.range 2,
          [(1 : ℚ), 2, 3, 4].getD (2 + 1 - 2 + j) 0) / 2))) :=
  ⟨by decide, by decide, by decide,
    moving_average_window_mean [1, 2, 3, 4] 2 2 (by decide) (by decide)
      (by decide)⟩

theorem avg_gain_length (close : List ℚ) (window : ℕ) :
    (avg_gain close window).length = (diffs close).length := by
  simp [avg_gain, ewm_length]

theorem avg_loss_length (close : List ℚ) (window : ℕ) :
    (avg_loss close window).length = (diffs close).length := by
  simp [avg_loss, ewm_length]

theorem avg_gain_nonneg (close : List ℚ) (window : ℕ) (hw : 0 < window) :
    ∀ y ∈ avg_gain close window, 0 ≤ y := by
  apply ewm_nonneg
  · positivity
  · rw [div_le_one (by exact_mod_cast hw)]
    exact_mod_cast hw
  · intro x hx
    rcases List.mem_map.mp hx with ⟨y, _, rfl⟩
    exact le_max_right _ _

theorem avg_loss_nonneg (close : List ℚ) (window : ℕ) (hw : 0 < window) :
    ∀ y ∈ avg_loss close window, 0 ≤ y := by
  apply ewm_nonneg
  · positivity
  · rw [div_le_one (by exact_mod_cast hw)]
    exact_mod_cast hw
  · intro x hx
    rcases List.mem_map.mp hx with ⟨y, _, rfl⟩
    exact le_max_right _ _

theorem rsi_entry_bounds (g l : ℚ) (hg : 0 ≤ g) (hl : 0 ≤ l) :
    0 ≤ (if l = 0 then (50 : ℚ) else 100 - 100 / (1 + g / l)) ∧
    (if l = 0 then (50 : ℚ) else 100 - 100 / (1 + g / l)) ≤ 100 := by
  split
  · norm_num
  · next hne =>
    have hlpos : 0 < l := lt_of_le_of_ne hl (Ne.symm hne)
    have hq : 0 ≤ g / l := div_nonneg hg hl
    have hle : 100 / (1 + g / l) ≤ 100 := div_le_self (by norm_num) (by linarith)
    have hpos : 0 < 100 / (1 + g / l) := div_pos (by norm_num) (by linarith)
    constructor <;> linarith

/-- **C3.** For every finite close series and positive window, every RSI
value lies in `[0, 100]`; and at any index where the computed `avg_loss`
is zero — in particular the first — the RSI value is exactly 50 (the
division-by-zero-avoiding convention, not an error). -/
theorem rsi_range_and_neutral (close : List ℚ) (window : ℕ)
    (hw : 0 < window) :
    (∀ r ∈ RSI close window, 0 ≤ r ∧ r ≤ 100) ∧
    (∀ i, ∀ h : i < (avg_loss close window).length,
      (avg_loss close window).get ⟨i, h⟩ = 0 →
      (RSI close window).getD (i + 1) 0 = 50) := by
  constructor
  · intro r hr
    match hc : close with
    | [] => simp [RSI] at hr
    | c :: cs =>
      simp only [RSI, List.mem_cons] at hr
      rcases hr with h | h
      · subst h; norm_num
      · rcases List.mem_iff_getElem.mp h with ⟨i, hi, hval⟩
        rw [List.getElem_zipWith] at hval
        subst hval
        exact rsi_entry_bounds _ _
          (avg_gain_nonneg _ window hw _ (List.getElem_mem _))
          (avg_loss_nonneg _ window hw _ (List.getElem_mem _))
  · intro i h hzero
    match hc : close with
    | [] => simp [avg_loss, ewm, diffs] at h
    | c :: cs =>
      have hi : i < (List.zipWith
          (fun g l => if l = 0 then (50 : ℚ) else 100 - 100 / (1 + g / l))
          (avg_gain (c :: cs) window) (avg_loss (c :: cs) window)).length := by
        rw [List.length_zipWith, avg_gain_length, avg_loss_length]
        rw [avg_loss_length] at h
        omega
      simp only [RSI, List.getD_cons_succ]
      rw [List.getD_eq_getElem _ _ hi, List.getElem_zipWith]
      have : (avg_loss (c :: cs) window)[i] = 0 := by
        rw [← hzero]; rfl
      rw [this]
      simp

/-- Witness for C3 at `close = [3, 4, 6]`, `window = 14`: the series only
rises, so `avg_loss` is zero everywhere; RSI is 50 at index 1. -/
theorem rsi_range_and_neutral_witness :
    0 < 14 ∧
    (∀ r ∈ RSI [(3 : ℚ), 4, 6] 14, 0 ≤ r ∧ r ≤ 100) ∧
    (0 < (avg_loss [(3 : ℚ), 4, 6] 14).length ∧
      (avg_loss [(3 : ℚ), 4, 6] 14).get
        ⟨0, by simp [avg_loss, diffs, ewm_length]⟩ = 0 ∧
      (RSI [(3 : ℚ), 4, 6] 14).getD 1 0 = 50) :=
  ⟨by decide,
    (rsi_range_and_neutral [3, 4, 6] 14 (by decide)).1,
    by simp [avg_loss, diffs, ewm_length],
    by norm_num [avg_loss, diffs, ewm, ewmTail],
    (rsi_range_and_neutral [3, 4, 6] 14 (by decide)).2 0
      (by simp [avg_loss, diffs, ewm_length])
      (by norm_num [avg_loss, diffs, ewm, ewmTail])⟩

theorem macd_length (close : List ℚ) (short long : ℕ) :
    (macd close short long).length = close.length := by
  simp [macd, emaSpan, List.length_zipWith, ewm_length]

theorem signal_line_length (close : List ℚ) (short long signal : ℕ) :
    (signal_line close short long signal).length = close.length := by
  simp [signal_line, emaSpan, ewm_length, macd_length]

theorem hist_length (close : List ℚ) (short long signal : ℕ) :
    (hist close short long signal).length = close.length := by
  simp [hist, List.length_zipWith, macd_length, signal_line_length]

/-- **C4.** With parameters `short = 12`, `long = 26`, `signal = 9`, the
MACD histogram equals `macd - signal_line` pointwise at every index
(where `macd` is the difference of the unadjusted span-12 and span-26
EWMAs of the closes and `signal_line` is the span-9 EWMA of `macd`), and
the three series are aligned to the input's length. -/
theorem macd_histogram_pointwise (close : List ℚ) (i : ℕ)
    (hi : i < close.length) :
    (hist close 12 26 9).length = close.length ∧
    (hist close 12 26 9).getD i 0 =
      (macd close 12 26).getD i 0 - (signal_line close 12 26 9).getD i 0 := by
  refine ⟨hist_length close 12 26 9, ?_⟩
  have h1 : i < (hist close 12 26 9).length := by rw [hist_length]; exact hi
  have h2 : i < (macd close 12 26).length := by rw [macd_length]; exact hi
  have h3 : i < (signal_line close 12 26 9).length := by
    rw [signal_line_length]; exact hi
  rw [List.getD_eq_getElem _ _ h1, List.getD_eq_getElem _ _ h2,
    List.getD_eq_getElem _ _ h3]
  simp only [hist, List.getElem_zipWith]

/-- Witness for C4 at `close = [1, 2, 4]`, `i = 2`. -/
theorem macd_histogram_pointwise_witness :
    2 < [(1 : ℚ), 2, 4].length ∧
    ((hist [(1 : ℚ), 2, 4] 12 26 9).length = [(1 : ℚ), 2, 4].length ∧
    (hist [(1 : ℚ), 2, 4] 12 26 9).getD 2 0 =
      (macd [(1 : ℚ), 2, 4] 12 26).getD 2 0 -
        (signal_line [(1 : ℚ), 2, 4] 12 26 9).getD 2 0) :=
  ⟨by decide, macd_histogram_pointwise [1, 2, 4] 2 (by decide)⟩

/-- **C6.** Whenever the start date is equal to or after the end date,
both pages report `InvalidInput` and halt before any fetch: no provider
call is attempted, no metric is computed, and nothing is rendered. -/
theorem invalid_dates_halt_before_fetch (start_date end_date : ℕ)
    (p : AnalysisProvider) (bars : List (ℕ × ℚ))
    (fit : List ℚ → Except String (List ℚ)) (forecast_days : ℕ)
    (h : end_date ≤ start_date) :
    analysisPipeline start_date end_date p =
      ⟨some .InvalidInput, false, none, none⟩ ∧
    predictionPipeline start_date end_date bars fit forecast_days =
      ⟨some .InvalidInput, false, none, false, false, none⟩ := by
  constructor
  · simp [analysisPipeline, h]
  · simp [predictionPipeline, h]

/-- Witness for C6: `start = 5`, `end = 5`. -/
theorem invalid_dates_halt_before_fetch_witness :
    (5 : ℕ) ≤ 5 ∧
    (analysisPipeline 5 5 ⟨.ok (), [1], .ok [2]⟩ =
      ⟨some .InvalidInput, false, none, none⟩ ∧
    predictionPipeline 5 5 [(0, 1)] (fun _ => .ok [1]) 30 =
      ⟨some .InvalidInput, false, none, false, false, none⟩) :=
  ⟨by decide,
    invalid_dates_halt_before_fetch 5 5 ⟨.ok (), [1], .ok [2]⟩ [(0, 1)]
      (fun _ => .ok [1]) 30 (by decide)⟩

/-- **C7.** When the dates are valid but the provider returns zero bars,
both pages report `NoDataFound` and halt: no metric is computed from the
empty series and no price chart or forecast is produced. -/
theorem empty_series_halts (start_date end_date : ℕ) (info : Except String Unit)
    (chart : Except Unit (List ℚ)) (fit : List ℚ → Except String (List ℚ))
    (forecast_days : ℕ) (hdates : start_date < end_date)
    (hinfo : info = .ok ()) :
    analysisPipeline start_date end_date ⟨info, [], chart⟩ =
      ⟨some .NoDataFound, true, none, none⟩ ∧
    predictionPipeline start_date end_date [] fit forecast_days =
      ⟨some .NoDataFound, true, none, false, false, none⟩ := by
  subst hinfo
  constructor
  · simp [analysisPipeline, Nat.not_le.mpr hdates]
  · simp [predictionPipeline, Nat.not_le.mpr hdates]

/-- Witness for C7: dates `3 < 7`, zero bars returned. -/
theorem empty_series_halts_witness :
    (3 : ℕ) < 7 ∧ (Except.ok () : Except String Unit) = .ok () ∧
    (analysisPipeline 3 7 ⟨.ok (), [], .ok [2]⟩ =
      ⟨some .NoDataFound, true, none, none⟩ ∧
    predictionPipeline 3 7 [] (fun _ => .ok [1]) 30 =
      ⟨some .NoDataFound, true, none, false, false, none⟩) :=
  ⟨by decide, rfl,
    empty_series_halts 3 7 (.ok ()) (.ok [2]) (fun _ => .ok [1]) 30
      (by decide) rfl⟩

/-- **C8.** When the ARIMA fit raises, the prediction page surfaces a
reportable `ModelFitError`: the forecast section is skipped (no forecast
chart, no forecast table), while the historical sections already produced
(metrics, historical chart) still stand, and the run ends in a reported
error rather than an unhandled crash. -/
theorem model_fit_error_reported (start_date end_date : ℕ)
    (bars : List (ℕ × ℚ)) (fit : List ℚ → Except String (List ℚ))
    (forecast_days : ℕ) (msg : String) (hdates : start_date < end_date)
    (hbars : bars ≠ []) (hfit : fit (bars.map Prod.snd) = .error msg) :
    (predictionPipeline start_date end_date bars fit forecast_days).err =
      some .ModelFitError ∧
    (predictionPipeline start_date end_date bars fit forecast_days).forecastRendered
      = false ∧
    (predictionPipeline start_date end_date bars fit forecast_days).forecastTable
      = none ∧
    (predictionPipeline start_date end_date bars fit forecast_days).historicalRendered
      = true ∧
    (predictionPipeline start_date end_date bars fit forecast_days).metrics =
      metricsPrediction (bars.map Prod.snd) := by
  have hne : bars.isEmpty = false := by
    cases bars with
    | nil => cases hbars rfl
    | cons b bs => rfl
  simp [predictionPipeline, Nat.not_le.mpr hdates, hne, hfit]

/-- Witness for C8: two bars, a fit that always raises. -/
theorem model_fit_error_reported_witness :
    (1 : ℕ) < 9 ∧ ([((2 : ℕ), (10 : ℚ)), (3, 11)] ≠ []) ∧
    ((fun _ : List ℚ => (Except.error "fit failed" : Except String (List ℚ)))
      ([((2 : ℕ), (10 : ℚ)), (3, 11)].map Prod.snd) = .error "fit failed") ∧
    ((predictionPipeline 1 9 [((2 : ℕ), (10 : ℚ)), (3, 11)]
        (fun _ => .error "fit failed") 30).err = some .ModelFitError ∧
    (predictionPipeline 1 9 [((2 : ℕ), (10 : ℚ)), (3, 11)]
        (fun _ => .error "fit failed") 30).forecastRendered = false ∧
    (predictionPipeline 1 9 [((2 : ℕ), (10 : ℚ)), (3, 11)]
        (fun _ => .error "fit failed") 30).forecastTable = none ∧
    (predictionPipeline 1 9 [((2 : ℕ), (10 : ℚ)), (3, 11)]
        (fun _ => .error "fit failed") 30).historicalRendered = true ∧
    (predictionPipeline 1 9 [((2 : ℕ), (10 : ℚ)), (3, 11)]
        (fun _ => .error "fit failed") 30).metrics =
      metricsPrediction ([((2 : ℕ), (10 : ℚ)), (3, 11)].map Prod.snd)) :=
  ⟨by decide, by decide, rfl,
    model_fit_error_reported 1 9 [(2, 10), (3, 11)]
      (fun _ => .error "fit failed") 30 "fit failed" (by decide)
      (by decide) rfl⟩

/-- **C9.** On any non-empty close series both pages' current-close /
daily-change metrics are defined (the second-to-last access is guarded by
a length check), and on a one-bar series the current close is that bar's
close and the daily change is `0`. -/
theorem single_bar_metrics (close : List ℚ) (h : close ≠ []) :
    (∃ m, metricsAnalysis close = some m) ∧
    (∃ m, metricsPrediction close = some m) ∧
    (close.length = 1 →
      metricsAnalysis close = some (close.getD 0 0, 0) ∧
      metricsPrediction close = some (close.getD 0 0, 0)) := by
  cases close with
  | nil => cases h rfl
  | cons c cs =>
    have hx : (c :: cs).getLast? = some ((c :: cs).getLast (by simp)) :=
      List.getLast?_eq_getLast _ _
    refine ⟨?_, ?_, ?_⟩
    · simp only [metricsAnalysis, hx]
      split <;> exact ⟨_, rfl⟩
    · simp only [metricsPrediction, hx]
      exact ⟨_, rfl⟩
    · intro hlen
      have hcs : cs = [] := by
        simp only [List.length_cons] at hlen
        exact List.eq_nil_of_length_eq_zero (by omega)
      subst hcs
      constructor
      · simp [metricsAnalysis]
      · simp [metricsPrediction]

/-- Witness for C9 on the one-bar series `[7]`. -/
theorem single_bar_metrics_witness :
    ([(7 : ℚ)] ≠ []) ∧
    ((∃ m, metricsAnalysis [(7 : ℚ)] = some m) ∧
    (∃ m, metricsPrediction [(7 : ℚ)] = some m) ∧
    ([(7 : ℚ)].length = 1 →
      metricsAnalysis [(7 : ℚ)] = some ([(7 : ℚ)].getD 0 0, 0) ∧
      metricsPrediction [(7 : ℚ)] = some ([(7 : ℚ)].getD 0 0, 0))) :=
  ⟨by decide, single_bar_metrics [7] (by decide)⟩

/-- **C10.** If the analysis page reaches chart rendering, the series it
passes to the renderers is non-empty: when the secondary fetch raised or
came back empty, the chart series is exactly the primary (already
validated non-empty) series. -/
theorem chart_series_nonempty (start_date end_date : ℕ)
    (p : AnalysisProvider) (l : List ℚ)
    (h : (analysisPipeline start_date end_date p).chartSeries = some l) :
    l ≠ [] ∧
    (∀ u, p.chartFetch = .error u → l = p.priceFetch) ∧
    (p.chartFetch = .ok [] → l = p.priceFetch) := by
  by_cases hd : end_date ≤ start_date
  · simp [analysisPipeline, hd] at h
  · match hinfo : p.infoFetch with
    | .error e => simp [analysisPipeline, hd, hinfo] at h
    | .ok _ =>
      by_cases hpe : p.priceFetch.isEmpty
      · simp [analysisPipeline, hd, hinfo, hpe] at h
      · have hpne : p.priceFetch ≠ [] := by
          intro hnil; rw [hnil] at hpe; exact hpe rfl
        match hch : p.chartFetch with
        | .error u =>
          simp only [analysisPipeline, if_neg hd, hinfo, if_neg hpe, hch,
            Option.some.injEq] at h
          subst h
          exact ⟨hpne, fun _ _ => rfl, by simp [hch]⟩
        | .ok l' =>
          simp only [analysisPipeline, if_neg hd, hinfo, if_neg hpe, hch,
            Option.some.injEq] at h
          by_cases hl' : l'.isEmpty
          · rw [if_pos hl'] at h
            subst h
            refine ⟨hpne, by simp [hch], fun _ => rfl⟩
          · rw [if_neg hl'] at h
            subst h
            refine ⟨fun hnil => hl' (by simp [hnil]), by simp [hch], ?_⟩
            intro hok
            have hnil : l' = ([] : List ℚ) := by injection hok
            subst hnil
            cases hl' rfl

/-- Witness for C10: the secondary fetch raises, the chart series is the
primary series `[5]`. -/
theorem chart_series_nonempty_witness :
    (analysisPipeline 0 1 ⟨.ok (), [5], .error ()⟩).chartSeries =
      some [(5 : ℚ)] ∧
    ([(5 : ℚ)] ≠ [] ∧
    (∀ u, (AnalysisProvider.mk (.ok ()) [5] (.error ())).chartFetch =
      .error u → [(5 : ℚ)] = [(5 : ℚ)]) ∧
    ((AnalysisProvider.mk (.ok ()) [5] (.error ())).chartFetch = .ok [] →
      [(5 : ℚ)] = [(5 : ℚ)])) := by
  have h : (analysisPipeline 0 1 ⟨.ok (), [5], .error ()⟩).chartSeries =
      some [(5 : ℚ)] := by decide
  exact ⟨h, chart_series_nonempty 0 1 ⟨.ok (), [5], .error ()⟩ [5] h⟩

end StockApp
